import Mathlib

/-!
Shallow embedding of the analytics core of `myStoicTracker` (`analyze.js`).

All JS numbers are modelled as exact rationals (`Rat`); epoch-millisecond
timestamps as `Int`.  `Math.sqrt` and the locale date formatter
`toLocaleDateString` are environment functions of the JS runtime and are
passed in as parameters (`sqrtQ`, `fmtD`); no claim depends on their values
beyond `sqrt 0 = 0`.  JS objects used as keyed accumulators are modelled as
insertion-ordered association lists, which preserves the sums that the
code later sorts and folds over.
-/

namespace StoicTracker

/-- A daily BTC price sample `{time, open, close}` built by `getDailyBtcPrices`. -/
structure PriceSample where
  time : Int
  openPrice : Rat
  close : Rat
deriving DecidableEq, Repr

/-- One step of the linear nearest-sample scan in `btcPriceAt`
(`analyze.js:90`): keep the candidate with the strictly smaller distance,
so ties keep the earlier sample. -/
def nearStep (ts : Int) (acc : PriceSample × Int) (p : PriceSample) : PriceSample × Int :=
  let d := |ts - p.time|
  if d < acc.2 then (p, d) else acc

/-- `btcPriceAt(ts, dailyPrices)` (`analyze.js:87-92`): close price of the
sample nearest in time, `null` (`none`) for an empty list. -/
def btcPriceAt (ts : Int) (dailyPrices : List PriceSample) : Option Rat :=
  match dailyPrices with
  | [] => none
  | best0 :: _ =>
    some ((dailyPrices.foldl (nearStep ts) (best0, |ts - best0.time|)).1).close

/-- A price-map lookup as used under the JS truthiness guards
`priceMap[k] ? _ : _`: a missing key and a zero price are both falsy, so
both are collapsed to `none`. -/
def truthyLookup (priceMap : List (String × Rat)) (k : String) : Option Rat :=
  match priceMap.lookup k with
  | some v => if v = 0 then none else some v
  | none => none

/-- The `stables` list of `toBtc` (`analyze.js:80`). -/
def stables : List String := ["USDT", "USDC", "BUSD", "FDUSD", "DAI"]

/-- `toBtc(asset, amount, priceMap)` (`analyze.js:77-85`). -/
def toBtc (asset : String) (amount : Rat) (priceMap : List (String × Rat)) : Rat :=
  if amount = 0 then 0
  else if asset = "BTC" then amount
  else if asset ∈ stables then
    match truthyLookup priceMap "BTCUSDT" with
    | some v => amount / v
    | none => 0
  else
    match truthyLookup priceMap (asset ++ "BTC") with
    | some r => amount * r
    | none =>
      match truthyLookup priceMap (asset ++ "USDT"), truthyLookup priceMap "BTCUSDT" with
      | some a, some b => amount * a / b
      | _, _ => 0

/-- A futures income event as consumed by the aggregators: `parseInt(inc.time)`,
`inc.incomeType`, `parseFloat(inc.income)` (an amount in USDT). -/
structure IncomeRec where
  time : Int
  incomeType : String
  income : Rat
deriving DecidableEq, Repr

/-- The PnL-category filter shared by the bucket builders
(`analyze.js:174,189,204`). -/
def isPnlType (i : IncomeRec) : Bool :=
  i.incomeType == "REALIZED_PNL" || i.incomeType == "FUNDING_FEE" ||
    i.incomeType == "COMMISSION"

/-- Stable insertion of an income event into a time-sorted list; together with
`sortByTime` this models the stable `Array#sort` by numeric time
(`analyze.js:205`). -/
def insertByTime (x : IncomeRec) : List IncomeRec → List IncomeRec
  | [] => [x]
  | y :: ys => if x.time ≤ y.time then x :: y :: ys else y :: insertByTime x ys

/-- Stable sort of income events ascending by time. -/
def sortByTime : List IncomeRec → List IncomeRec
  | [] => []
  | x :: xs => insertByTime x (sortByTime xs)

/-- `btcPriceAt(t, dailyPrices) || btcPrice` (`analyze.js:213`): both `null`
and a zero close price are falsy and fall back to the current spot price. -/
def priceOr (t : Int) (dailyPrices : List PriceSample) (btcPrice : Rat) : Rat :=
  match btcPriceAt t dailyPrices with
  | some p => if p = 0 then btcPrice else p
  | none => btcPrice

/-- `bp ? usdt / bp : 0` (`analyze.js:214`): a zero rate contributes zero. -/
def divOrZero (usdt bp : Rat) : Rat := if bp = 0 then 0 else usdt / bp

/-- A day bucket of `buildIncomeTimeline`: `{time, dailyBtc, cumulativeBtc}`. -/
structure DayBucket where
  time : Int
  dailyBtc : Rat
  cumulativeBtc : Rat
deriving DecidableEq, Repr

/-- UTC day-start key: `Math.floor(t / 86400000) * 86400000` (`analyze.js:211`). -/
def dayKeyOf (t : Int) : Int := t.fdiv 86400000 * 86400000

/-- Add a value into the keyed accumulator object `dayBuckets`
(`analyze.js:215-216`), preserving insertion order of keys. -/
def addToBucket (key : Int) (v : Rat) : List (Int × Rat) → List (Int × Rat)
  | [] => [(key, v)]
  | (k, s) :: rest =>
    if k = key then (k, s + v) :: rest else (k, s) :: addToBucket key v rest

/-- Stable insertion of a `(time, dailyBtc)` pair into a time-sorted list. -/
def insertPairByTime (x : Int × Rat) : List (Int × Rat) → List (Int × Rat)
  | [] => [x]
  | y :: ys => if x.1 ≤ y.1 then x :: y :: ys else y :: insertPairByTime x ys

/-- The `.sort((a, b) => a.time - b.time)` pass over the materialized buckets
(`analyze.js:218`). -/
def sortPairsByTime : List (Int × Rat) → List (Int × Rat)
  | [] => []
  | x :: xs => insertPairByTime x (sortPairsByTime xs)

/-- The cumulative second pass (`analyze.js:219`): running sum `cumBtc`
starting from `c`, recording it as `cumulativeBtc` of each bucket. -/
def cumFold (c : Rat) : List (Int × Rat) → List DayBucket
  | [] => []
  | (t, v) :: rest => ⟨t, v, c + v⟩ :: cumFold (c + v) rest

/-- `buildIncomeTimeline(income, dailyPrices, btcPrice)` (`analyze.js:202-221`). -/
def buildIncomeTimeline (income : List IncomeRec) (dailyPrices : List PriceSample)
    (btcPrice : Rat) : List DayBucket :=
  let sorted := sortByTime (income.filter isPnlType)
  if sorted.isEmpty then []
  else
    let buckets := sorted.foldl
      (fun acc inc =>
        addToBucket (dayKeyOf inc.time)
          (divOrZero inc.income (priceOr inc.time dailyPrices btcPrice)) acc)
      []
    cumFold 0 (sortPairsByTime buckets)

/-- Result record of `linearRegression`: `{slope, intercept, r2}`. -/
structure RegResult where
  slope : Rat
  intercept : Rat
  r2 : Rat
deriving DecidableEq, Repr

/-- The accumulation loop of `linearRegression` (`analyze.js:226-229`):
`sx += i; sy += points[i]; sxx += i*i; sxy += i*points[i]` over `i < n`. -/
def lrSums (points : List Rat) : Rat × Rat × Rat × Rat :=
  (List.range points.length).foldl
    (fun acc (i : Nat) =>
      (acc.1 + (i : Rat), acc.2.1 + points.getD i 0,
        acc.2.2.1 + (i : Rat) * (i : Rat), acc.2.2.2 + (i : Rat) * points.getD i 0))
    (0, 0, 0, 0)

/-- `linearRegression(points)` (`analyze.js:223-240`).  The JS guard
`(n * sxx - sx * sx || 1)` replaces a zero denominator by 1. -/
def linearRegression (points : List Rat) : RegResult :=
  if points.length < 2 then ⟨0, 0, 0⟩
  else
    let n : Rat := (points.length : Rat)
    let s := lrSums points
    let sx := s.1
    let sy := s.2.1
    let sxx := s.2.2.1
    let sxy := s.2.2.2
    let denom := n * sxx - sx * sx
    let slope := (n * sxy - sx * sy) / (if denom = 0 then 1 else denom)
    let intercept := (sy - slope * sx) / n
    let mean := sy / n
    let rs := (List.range points.length).foldl
      (fun (acc : Rat × Rat) (i : Nat) =>
        let pred := intercept + slope * (i : Rat)
        (acc.1 + (points.getD i 0 - pred) ^ 2, acc.2 + (points.getD i 0 - mean) ^ 2))
      (0, 0)
    ⟨slope, intercept, if rs.2 > 0 then 1 - rs.1 / rs.2 else 0⟩

/-- A month bucket of `buildMonthlyPnl`: `{time, pnlUsdt, pnlBtc}` (the string
key is only used for grouping and is dropped from the result's use sites). -/
structure MonthBucket where
  time : Int
  pnlUsdt : Rat
  pnlBtc : Rat
deriving DecidableEq, Repr

/-- A week bucket of `buildWeeklyPnl`: `{time, pnlUsdt, pnlBtc}`. -/
structure WeekBucket where
  time : Int
  pnlUsdt : Rat
  pnlBtc : Rat
deriving DecidableEq, Repr

/-- Week key (`analyze.js:176`):
`START_TIME + Math.floor((t - START_TIME) / weekMs) * weekMs`. -/
def weekKeyOf (startTime t : Int) : Int :=
  startTime + (t - startTime).fdiv (7 * 86400000) * (7 * 86400000)

/-- Keyed accumulation of `{pnlUsdt, pnlBtc}` sums into the `weeks` object
(`analyze.js:177-181`), preserving insertion order of keys. -/
def addWeek (key : Int) (usdt btc : Rat) :
    List (Int × Rat × Rat) → List (Int × Rat × Rat)
  | [] => [(key, usdt, btc)]
  | (k, u, b) :: rest =>
    if k = key then (k, u + usdt, b + btc) :: rest
    else (k, u, b) :: addWeek key usdt btc rest

/-- Stable insertion of a week bucket into a time-sorted list. -/
def insertWeekByTime (x : WeekBucket) : List WeekBucket → List WeekBucket
  | [] => [x]
  | y :: ys => if x.time ≤ y.time then x :: y :: ys else y :: insertWeekByTime x ys

/-- The `.sort((a, b) => a.time - b.time)` pass of `buildWeeklyPnl`. -/
def sortWeeksByTime : List WeekBucket → List WeekBucket
  | [] => []
  | x :: xs => insertWeekByTime x (sortWeeksByTime xs)

/-- `buildWeeklyPnl(income, dailyPrices, btcPrice)` (`analyze.js:170-184`).
`startTime` is the script-level `START_TIME` constant (wall clock dependent). -/
def buildWeeklyPnl (startTime : Int) (income : List IncomeRec)
    (dailyPrices : List PriceSample) (btcPrice : Rat) : List WeekBucket :=
  let ws := (income.filter isPnlType).foldl
    (fun acc inc =>
      addWeek (weekKeyOf startTime inc.time) inc.income
        (divOrZero inc.income (priceOr inc.time dailyPrices btcPrice)) acc)
    []
  sortWeeksByTime (ws.map (fun w => ⟨w.1, w.2.1, w.2.2⟩))

/-- Keyed accumulation into the `months` object (`analyze.js:188-198`); keys
are `(year, monthIndex)` pairs, the injective content of the `"Y-MM"` string
key built from `getFullYear`/`getMonth`. -/
def addMonth (key : Int × Int) (time : Int) (usdt btc : Rat) :
    List ((Int × Int) × MonthBucket) → List ((Int × Int) × MonthBucket)
  | [] => [(key, ⟨time, usdt, btc⟩)]
  | (k, mb) :: rest =>
    if k = key then (k, ⟨mb.time, mb.pnlUsdt + usdt, mb.pnlBtc + btc⟩) :: rest
    else (k, mb) :: addMonth key time usdt btc rest

/-- Stable insertion of a month bucket into a time-sorted list. -/
def insertMonthByTime (x : MonthBucket) : List MonthBucket → List MonthBucket
  | [] => [x]
  | y :: ys => if x.time ≤ y.time then x :: y :: ys else y :: insertMonthByTime x ys

/-- The `.sort((a, b) => a.time - b.time)` pass of `buildMonthlyPnl`. -/
def sortMonthsByTime : List MonthBucket → List MonthBucket
  | [] => []
  | x :: xs => insertMonthByTime x (sortMonthsByTime xs)

/-- `buildMonthlyPnl(income, dailyPrices, btcPrice)` (`analyze.js:186-200`).
`localYM t` models `(d.getFullYear(), d.getMonth())` of `new Date(t)` in
report-local time, and `monthStartMs` models `new Date(y, m, 1).getTime()`;
both depend on the runtime's timezone and are taken as parameters. -/
def buildMonthlyPnl (localYM : Int → Int × Int) (monthStartMs : Int × Int → Int)
    (income : List IncomeRec) (dailyPrices : List PriceSample) (btcPrice : Rat) :
    List MonthBucket :=
  let ms := (income.filter isPnlType).foldl
    (fun acc inc =>
      addMonth (localYM inc.time) (monthStartMs (localYM inc.time)) inc.income
        (divOrZero inc.income (priceOr inc.time dailyPrices btcPrice)) acc)
    []
  sortMonthsByTime (ms.map Prod.snd)

/-- Result record of `computeForecastData` (`analyze.js:253-263`). -/
structure ForecastData where
  avgMonthlyPnlBtc : Rat
  stdDev : Rat
  avgMonthlyRoi : Rat
  monthlyRoiStdDev : Rat
  trend : RegResult
  trendDirection : String
  currentBtc : Rat
  monthlyData : List Rat
deriving DecidableEq, Repr

/-- `computeForecastData(monthlyPnl, totalBalanceBtc, netExternalFlowBtc)`
(`analyze.js:242-264`).  `sqrtQ` stands for `Math.sqrt`. -/
def computeForecastData (sqrtQ : Rat → Rat) (monthlyPnl : List MonthBucket)
    (totalBalanceBtc netExternalFlowBtc : Rat) : ForecastData :=
  let pnlValues := monthlyPnl.map (·.pnlBtc)
  let denomLen : Rat := if pnlValues.length = 0 then 1 else (pnlValues.length : Rat)
  let avgMonthlyPnlBtc := pnlValues.foldl (· + ·) 0 / denomLen
  let variance := pnlValues.foldl (fun s v => s + (v - avgMonthlyPnlBtc) ^ 2) 0 / denomLen
  let stdDev := sqrtQ variance
  let avgMonthlyRoi := if netExternalFlowBtc > 0 then avgMonthlyPnlBtc / netExternalFlowBtc else 0
  let monthlyRoiStdDev := if netExternalFlowBtc > 0 then stdDev / netExternalFlowBtc else 0
  let reg := linearRegression pnlValues
  let trendDirection :=
    if reg.slope > 0 then "improving" else if reg.slope < 0 then "declining" else "flat"
  { avgMonthlyPnlBtc := avgMonthlyPnlBtc
    stdDev := stdDev
    avgMonthlyRoi := avgMonthlyRoi
    monthlyRoiStdDev := monthlyRoiStdDev
    trend := reg
    trendDirection := trendDirection
    currentBtc := totalBalanceBtc
    monthlyData := pnlValues }

/-- Result record of `computeRiskMetrics` (`analyze.js:779-794`). -/
structure RiskMetrics where
  sharpe : Rat
  maxDrawdownBtc : Rat
  maxDrawdownPct : Rat
  bestDay : Rat
  worstDay : Rat
  bestDayPct : Rat
  worstDayPct : Rat
  bestDayDate : String
  worstDayDate : String
  winRate : Rat
  winDays : Nat
  totalDays : Nat
  profitFactor : Rat
deriving DecidableEq, Repr

/-- The all-zero/neutral object returned when fewer than 2 day buckets are
available (`analyze.js:743`). -/
def neutralRiskMetrics : RiskMetrics :=
  { sharpe := 0, maxDrawdownBtc := 0, maxDrawdownPct := 0, bestDay := 0,
    worstDay := 0, bestDayPct := 0, worstDayPct := 0, bestDayDate := "-",
    worstDayDate := "-", winRate := 0, winDays := 0, totalDays := 0,
    profitFactor := 0 }

/-- `cumulativeBtc` of `timeline[timeline.length - 1]` (`analyze.js:745`); the
default 0 is never reached at the call sites, which guard `length ≥ 2`. -/
def lastCumulative (timeline : List DayBucket) : Rat :=
  match timeline.getLast? with
  | some d => d.cumulativeBtc
  | none => 0

/-- The `dailyReturnPct` loop (`analyze.js:746-752`): day return is
`dailyBtc / equityStart` when start-of-day equity is positive, else 0, while
`equityStart` walks forward by each day's delta. -/
def dailyReturnList (e : Rat) : List DayBucket → List Rat
  | [] => []
  | d :: rest =>
    (if e > 0 then d.dailyBtc / e else 0) :: dailyReturnList (e + d.dailyBtc) rest

/-- The drawdown loop of `computeRiskMetrics` (`analyze.js:758-765`), on the
state `(equity, peak, maxDDbtc)` with initial value `(startEquity, 0, 0)`. -/
def ddLoop : List DayBucket → Rat × Rat × Rat → Rat × Rat × Rat
  | [], s => s
  | d :: rest, (e, p, m) =>
    let e1 := e + d.dailyBtc
    let p1 := if e1 > p then e1 else p
    let dd := p1 - e1
    ddLoop rest (e1, p1, if dd > m then dd else m)

/-- State of the best/worst-day scan (`analyze.js:768-772`); `none` models the
`-Infinity` (for best) and `Infinity` (for worst) initial sentinels. -/
structure BWState where
  bestDay : Option Rat
  bestDayPct : Option Rat
  bestIdx : Nat
  worstDay : Option Rat
  worstDayPct : Option Rat
  worstIdx : Nat
deriving DecidableEq, Repr

/-- `v > bestDay` against the `-Infinity` sentinel. -/
def gtBest (v : Rat) : Option Rat → Bool
  | none => true
  | some b => v > b

/-- `v < worstDay` against the `Infinity` sentinel. -/
def ltWorst (v : Rat) : Option Rat → Bool
  | none => true
  | some w => v < w

/-- The best/worst-day scan (`analyze.js:768-772`) over indices `i < length`. -/
def bestWorstLoop (timeline : List DayBucket) (dailyReturnPct : List Rat) : BWState :=
  (List.range timeline.length).foldl
    (fun st i =>
      let d := (timeline.getD i ⟨0, 0, 0⟩).dailyBtc
      let pct := dailyReturnPct.getD i 0
      let st1 :=
        if gtBest d st.bestDay then
          { st with bestDay := some d, bestDayPct := some pct, bestIdx := i }
        else st
      if ltWorst d st1.worstDay then
        { st1 with worstDay := some d, worstDayPct := some pct, worstIdx := i }
      else st1)
    ⟨none, none, 0, none, none, 0⟩

/-- `computeRiskMetrics(timeline, totalBtc)` (`analyze.js:741-794`).  `sqrtQ`
stands for `Math.sqrt` and `fmtD` for the locale date formatter `fmtD`
(`analyze.js:773`); the unused local `maxDD` of line 758 is omitted. -/
def computeRiskMetrics (sqrtQ : Rat → Rat) (fmtD : Int → String)
    (timeline : List DayBucket) (totalBtc : Rat) : RiskMetrics :=
  if timeline.length < 2 then neutralRiskMetrics
  else
    let startEquity := totalBtc - lastCumulative timeline
    let dailyReturnPct := dailyReturnList startEquity timeline
    let len : Rat := (dailyReturnPct.length : Rat)
    let mean := dailyReturnPct.foldl (· + ·) 0 / len
    let variance := dailyReturnPct.foldl (fun s v => s + (v - mean) ^ 2) 0 / len
    let stdDev := sqrtQ variance
    let sharpe := if stdDev > 0 then mean / stdDev * sqrtQ 365 else 0
    let dd := ddLoop timeline (startEquity, 0, 0)
    let peak := dd.2.1
    let maxDDbtc := dd.2.2
    let maxDDpct := if peak > 0 then maxDDbtc / peak * 100 else 0
    let bw := bestWorstLoop timeline dailyReturnPct
    let dailyReturns := timeline.map (·.dailyBtc)
    let winDays := (dailyReturns.filter (fun r => r > 0)).length
    let grossProfit := (dailyReturns.filter (fun r => r > 0)).foldl (· + ·) 0
    let grossLoss := |(dailyReturns.filter (fun r => r < 0)).foldl (· + ·) 0|
    { sharpe := sharpe
      maxDrawdownBtc := maxDDbtc
      maxDrawdownPct := maxDDpct
      bestDay := bw.bestDay.getD 0
      worstDay := bw.worstDay.getD 0
      bestDayPct := bw.bestDayPct.getD 0
      worstDayPct := bw.worstDayPct.getD 0
      bestDayDate := fmtD ((timeline.getD bw.bestIdx ⟨0, 0, 0⟩).time)
      worstDayDate := fmtD ((timeline.getD bw.worstIdx ⟨0, 0, 0⟩).time)
      winRate := if timeline.length > 0 then (winDays : Rat) / (timeline.length : Rat) else 0
      winDays := winDays
      totalDays := timeline.length
      profitFactor :=
        if grossLoss > 0 then grossProfit / grossLoss
        else if grossProfit > 0 then 999 else 0 }

/-- A reconstructed equity point `{time, equity}` as pushed by the loop in
`genEquityCurve` (`analyze.js:799-804`). -/
structure EquityPoint where
  time : Int
  equity : Rat
deriving DecidableEq, Repr

/-- The forward walk of `genEquityCurve` (`analyze.js:800-804`): starting from
`e`, add each day's delta and record `{time, equity}`. -/
def curvePoints (e : Rat) : List DayBucket → List EquityPoint
  | [] => []
  | d :: rest => ⟨d.time, e + d.dailyBtc⟩ :: curvePoints (e + d.dailyBtc) rest

/-- The `points` array built by `genEquityCurve(timeline, totalBtc)`
(`analyze.js:796-804`) before it is rendered into SVG; the function bails out
to an empty rendering when fewer than 2 buckets exist. -/
def genEquityCurvePoints (timeline : List DayBucket) (totalBtc : Rat) : List EquityPoint :=
  if timeline.length < 2 then []
  else curvePoints (totalBtc - lastCumulative timeline) timeline

/-- Specification-side reconstructed equity series: `equity[i]` is the start
value plus the daily deltas up to and including day `i`. -/
def equitySeq (e : Rat) : List DayBucket → List Rat
  | [] => []
  | d :: rest => (e + d.dailyBtc) :: equitySeq (e + d.dailyBtc) rest

/-- Specification-side running peak of a series, seeded with `p0`. -/
def runningPeaksFrom (p0 : Rat) : List Rat → List Rat
  | [] => []
  | e :: rest => max p0 e :: runningPeaksFrom (max p0 e) rest

/-- Specification-side drawdown series over an equity series:
`drawdown[i] = equity[i] - runningPeak[i]`, where the running peak is seeded
with 0 exactly as the code's `let peak = 0` does. -/
def drawdowns (eq : List Rat) : List Rat :=
  List.zipWith (fun e p => e - p) eq (runningPeaksFrom 0 eq)

/-- C6: for every amount `x` and every price map, `toBtc('BTC', x, priceMap)`
returns `x` unchanged — BTC conversion is the identity (the zero short-circuit
returns `0 = x` when `x = 0`). -/
theorem toBtc_btc_identity (x : Rat) (priceMap : List (String × Rat)) :
    toBtc "BTC" x priceMap = x := by
  by_cases h : x = 0 <;> simp [toBtc, h]

/-- C5: `toBtc` follows the documented conversion chain — zero amount
short-circuits to 0; BTC is the identity; a recognized stable-value asset is
divided by the (truthy) BTCUSDT quote, else 0; otherwise a truthy direct
asset-BTC rate multiplies; otherwise a truthy assetUSDT/BTCUSDT cross divides;
otherwise 0 — and in particular
`toBtc('ETH', 2, {ETHUSDT: 3000, BTCUSDT: 60000}) = 0.1`. -/
theorem toBtc_conversion_chain (asset : String) (amount : Rat)
    (m : List (String × Rat)) :
    (amount = 0 → toBtc asset amount m = 0) ∧
    (asset = "BTC" → toBtc asset amount m = amount) ∧
    (amount ≠ 0 → asset ≠ "BTC" → asset ∈ stables →
      (∀ v, truthyLookup m "BTCUSDT" = some v → toBtc asset amount m = amount / v) ∧
      (truthyLookup m "BTCUSDT" = none → toBtc asset amount m = 0)) ∧
    (amount ≠ 0 → asset ≠ "BTC" → asset ∉ stables →
      (∀ r, truthyLookup m (asset ++ "BTC") = some r →
        toBtc asset amount m = amount * r) ∧
      (truthyLookup m (asset ++ "BTC") = none →
        (∀ a b, truthyLookup m (asset ++ "USDT") = some a →
          truthyLookup m "BTCUSDT" = some b → toBtc asset amount m = amount * a / b) ∧
        ((truthyLookup m (asset ++ "USDT") = none ∨ truthyLookup m "BTCUSDT" = none) →
          toBtc asset amount m = 0))) ∧
    toBtc "ETH" 2 [("ETHUSDT", 3000), ("BTCUSDT", 60000)] = 1 / 10 := by
  refine ⟨fun h0 => by simp [toBtc, h0],
    fun hb => by subst hb; by_cases h : amount = 0 <;> simp [toBtc, h],
    ?_, ?_, ?_⟩
  · intro h0 hb hs
    exact ⟨fun v hv => by simp [toBtc, h0, hb, hs, hv],
      fun hn => by simp [toBtc, h0, hb, hs, hn]⟩
  · intro h0 hb hs
    refine ⟨fun r hr => by simp [toBtc, h0, hb, hs, hr], fun hn => ?_⟩
    refine ⟨fun a b ha hbb => by simp [toBtc, h0, hb, hs, hn, ha, hbb], fun hor => ?_⟩
    rcases hor with h | h
    · simp [toBtc, h0, hb, hs, hn, h]
    · cases hu : truthyLookup m (asset ++ "USDT") <;>
        simp [toBtc, h0, hb, hs, hn, h, hu]
  case _ =>
    rw [toBtc]
    rw [if_neg (by norm_num : ¬ (2 : Rat) = 0)]
    rw [if_neg (by decide : ¬ "ETH" = "BTC")]
    rw [if_neg (by decide : ¬ "ETH" ∈ stables)]
    rw [show truthyLookup [("ETHUSDT", (3000 : Rat)), ("BTCUSDT", 60000)] ("ETH" ++ "BTC")
          = none from by decide]
    rw [show truthyLookup [("ETHUSDT", (3000 : Rat)), ("BTCUSDT", 60000)] ("ETH" ++ "USDT")
          = some 3000 from by decide]
    rw [show truthyLookup [("ETHUSDT", (3000 : Rat)), ("BTCUSDT", 60000)] "BTCUSDT"
          = some 60000 from by decide]
    norm_num

/-- C10: for a recognized stable-value asset and a nonzero amount, a missing or
zero-valued BTCUSDT price yields 0 even when other pairs exist: the stable
branch preempts the direct-pair and USDT-cross fallbacks. -/
theorem toBtc_stable_requires_btcusdt (asset : String) (amount : Rat)
    (m : List (String × Rat)) (hs : asset ∈ stables) (h0 : amount ≠ 0)
    (hb : truthyLookup m "BTCUSDT" = none) :
    toBtc asset amount m = 0 := by
  have hne : asset ≠ "BTC" := by rintro rfl; revert hs; decide
  simp [toBtc, h0, hne, hs, hb]

/-- Closed witness for C10: USDT with a live USDTBTC pair and a zero-valued
BTCUSDT entry still converts to 0. -/
theorem toBtc_stable_requires_btcusdt_witness :
    toBtc "USDT" 3 [("USDTBTC", 1/2), ("USDTUSDT", 1), ("BTCUSDT", 0)] = 0 :=
  toBtc_stable_requires_btcusdt "USDT" 3 _ (by decide) (by norm_num) (by decide)

lemma buildIncomeTimeline_eq_cumFold (income : List IncomeRec)
    (dailyPrices : List PriceSample) (btcPrice : Rat) :
    ∃ l, buildIncomeTimeline income dailyPrices btcPrice = cumFold 0 l := by
  simp only [buildIncomeTimeline]
  by_cases h : (sortByTime (income.filter isPnlType)).isEmpty
  · rw [if_pos h]; exact ⟨[], rfl⟩
  · rw [if_neg h]; exact ⟨_, rfl⟩

lemma cumFold_map_daily (l : List (Int × Rat)) :
    ∀ c : Rat, (cumFold c l).map (fun d => d.dailyBtc) = l.map Prod.snd := by
  induction l with
  | nil => intro c; rfl
  | cons x rest ih => cases x; intro c; simp [cumFold, ih]

lemma cumFold_get_cumulative (l : List (Int × Rat)) :
    ∀ (c : Rat) (i : Nat) (hi : i < (cumFold c l).length),
      ((cumFold c l).get ⟨i, hi⟩).cumulativeBtc
        = c + (((cumFold c l).take (i + 1)).map (fun d => d.dailyBtc)).sum := by
  induction l with
  | nil => intro c i hi; simp [cumFold] at hi
  | cons x rest ih =>
    intro c i hi
    cases x with
    | mk t v =>
      cases i with
      | zero => simp [cumFold]
      | succ j =>
        have hj : j < (cumFold (c + v) rest).length := by
          simpa [cumFold] using hi
        have := ih (c + v) j hj
        simp only [cumFold, List.get_cons_succ, List.take_succ_cons, List.map_cons,
          List.sum_cons] at this ⊢
        rw [this]; ring

/-- C3: for every income list, the day buckets returned by
`buildIncomeTimeline` satisfy the cumulative invariant: at every index `i`,
`cumulativeBtc` equals the sum of `dailyBtc` over indices `0..i`. -/
theorem buildIncomeTimeline_cumulative (income : List IncomeRec)
    (dailyPrices : List PriceSample) (btcPrice : Rat) (i : Nat)
    (hi : i < (buildIncomeTimeline income dailyPrices btcPrice).length) :
    ((buildIncomeTimeline income dailyPrices btcPrice).get ⟨i, hi⟩).cumulativeBtc
      = (((buildIncomeTimeline income dailyPrices btcPrice).take (i + 1)).map
          (fun d => d.dailyBtc)).sum := by
  obtain ⟨l, hl⟩ := buildIncomeTimeline_eq_cumFold income dailyPrices btcPrice
  revert hi
  rw [hl]
  intro hi
  rw [cumFold_get_cumulative l 0 i hi, zero_add]

/-- Closed witness for C3 at a concrete two-day income list. -/
theorem buildIncomeTimeline_cumulative_witness :
    ((buildIncomeTimeline
        [⟨0, "REALIZED_PNL", 1⟩, ⟨86400000, "FUNDING_FEE", 2⟩] [] 1).get
          ⟨1, by decide⟩).cumulativeBtc
      = (((buildIncomeTimeline
            [⟨0, "REALIZED_PNL", 1⟩, ⟨86400000, "FUNDING_FEE", 2⟩] [] 1).take 2).map
            (fun d => d.dailyBtc)).sum :=
  buildIncomeTimeline_cumulative _ _ _ 1 (by decide)

lemma cumFold_lastCumulative (l : List (Int × Rat)) :
    ∀ c : Rat, l ≠ [] →
      lastCumulative (cumFold c l) = c + (l.map Prod.snd).sum := by
  induction l with
  | nil => intro c h; exact absurd rfl h
  | cons x rest ih =>
    intro c _
    cases x with
    | mk t v =>
      cases rest with
      | nil => simp [cumFold, lastCumulative]
      | cons y rest2 =>
        have := ih (c + v) (by simp)
        obtain ⟨u, w⟩ := y
        simp only [cumFold, lastCumulative, List.getLast?_cons_cons] at this ⊢
        rw [this]
        simp [List.sum_cons]; ring

lemma curvePoints_getLast (l : List DayBucket) :
    ∀ e : Rat, l ≠ [] →
      ∃ pt : EquityPoint, (curvePoints e l).getLast? = some pt ∧
        pt.equity = e + (l.map (fun d => d.dailyBtc)).sum := by
  induction l with
  | nil => intro e h; exact absurd rfl h
  | cons d rest ih =>
    intro e _
    cases rest with
    | nil =>
      refine ⟨⟨d.time, e + d.dailyBtc⟩, by simp [curvePoints], by simp⟩
    | cons d2 rest2 =>
      obtain ⟨pt, h1, h2⟩ := ih (e + d.dailyBtc) (by simp)
      refine ⟨pt, ?_, ?_⟩
      · rw [show curvePoints e (d :: d2 :: rest2)
            = ⟨d.time, e + d.dailyBtc⟩ :: curvePoints (e + d.dailyBtc) (d2 :: rest2)
            from rfl]
        rw [show curvePoints (e + d.dailyBtc) (d2 :: rest2)
            = ⟨d2.time, e + d.dailyBtc + d2.dailyBtc⟩ ::
                curvePoints (e + d.dailyBtc + d2.dailyBtc) rest2 from rfl] at h1 ⊢
        rw [List.getLast?_cons_cons]
        exact h1
      · rw [h2]; simp [List.sum_cons]; ring

/-- C2: for a timeline built by `buildIncomeTimeline` with at least 2 day
buckets, the equity series of `genEquityCurve` — which starts from
`totalBtc - lastCumulative` (equal to `totalBtc` minus the sum of all daily
deltas by the cumulative invariant) and adds each day's delta in order — ends
exactly at `totalBtc`; over the rationals the equality is exact, hence within
any positive tolerance such as 1e-9. -/
theorem equityCurve_last_equals_balance (income : List IncomeRec)
    (dailyPrices : List PriceSample) (btcPrice : Rat) (totalBtc : Rat)
    (h : 2 ≤ (buildIncomeTimeline income dailyPrices btcPrice).length) :
    ∃ pt : EquityPoint,
      (genEquityCurvePoints (buildIncomeTimeline income dailyPrices btcPrice)
          totalBtc).getLast? = some pt ∧
      pt.equity = totalBtc := by
  obtain ⟨l, hl⟩ := buildIncomeTimeline_eq_cumFold income dailyPrices btcPrice
  have hne : buildIncomeTimeline income dailyPrices btcPrice ≠ [] := by
    intro h0; rw [h0] at h; simp at h
  have hlne : l ≠ [] := by
    intro h0
    rw [h0] at hl
    exact hne (by rw [hl]; rfl)
  have hlen : ¬ (buildIncomeTimeline income dailyPrices btcPrice).length < 2 := by
    omega
  obtain ⟨pt, h1, h2⟩ := curvePoints_getLast
    (buildIncomeTimeline income dailyPrices btcPrice)
    (totalBtc - lastCumulative (buildIncomeTimeline income dailyPrices btcPrice)) hne
  refine ⟨pt, ?_, ?_⟩
  · rw [genEquityCurvePoints, if_neg hlen]
    exact h1
  · rw [h2]
    have hdaily : (buildIncomeTimeline income dailyPrices btcPrice).map
        (fun d => d.dailyBtc) = l.map Prod.snd := by
      rw [hl]; exact cumFold_map_daily l 0
    have hlast : lastCumulative (buildIncomeTimeline income dailyPrices btcPrice)
        = 0 + (l.map Prod.snd).sum := by
      rw [hl]; exact cumFold_lastCumulative l 0 hlne
    rw [hdaily, hlast]; ring

/-- Closed witness for C2 at a concrete two-day income list and balance 7/2. -/
theorem equityCurve_last_equals_balance_witness :
    ∃ pt : EquityPoint,
      (genEquityCurvePoints
          (buildIncomeTimeline
            [⟨0, "REALIZED_PNL", 1⟩, ⟨86400000, "FUNDING_FEE", 2⟩] [] 1)
          (7 / 2)).getLast? = some pt ∧
      pt.equity = 7 / 2 :=
  equityCurve_last_equals_balance _ _ _ _ (by decide)

lemma addToBucket_keys (key : Int) (v : Rat) (l : List (Int × Rat)) :
    (addToBucket key v l).map Prod.fst
      = if key ∈ l.map Prod.fst then l.map Prod.fst
        else l.map Prod.fst ++ [key] := by
  induction l with
  | nil => simp [addToBucket]
  | cons x rest ih =>
    obtain ⟨k, s⟩ := x
    by_cases hk : k = key
    · subst hk; simp [addToBucket]
    · by_cases hmem : key ∈ rest.map Prod.fst <;>
        simp [addToBucket, hk, Ne.symm hk, hmem, ih]

lemma addToBucket_inv (P : Int → Prop) (key : Int) (v : Rat) (l : List (Int × Rat))
    (hnd : (l.map Prod.fst).Nodup) (hP : ∀ k ∈ l.map Prod.fst, P k) (hkey : P key) :
    ((addToBucket key v l).map Prod.fst).Nodup ∧
      ∀ k ∈ (addToBucket key v l).map Prod.fst, P k := by
  rw [addToBucket_keys]
  by_cases hmem : key ∈ l.map Prod.fst
  · simp only [if_pos hmem]
    exact ⟨hnd, hP⟩
  · simp only [if_neg hmem]
    constructor
    · exact List.Nodup.append hnd (List.nodup_singleton key)
        (by simpa using fun h => hmem h)
    · intro k hk
      rcases List.mem_append.mp hk with h | h
      · exact hP k h
      · simp at h; subst h; exact hkey

lemma bucketFold_inv (P : Int → Prop) (step : IncomeRec → Int) (g : IncomeRec → Rat)
    (hstep : ∀ i, P (step i)) (xs : List IncomeRec) :
    ∀ acc : List (Int × Rat),
      (acc.map Prod.fst).Nodup → (∀ k ∈ acc.map Prod.fst, P k) →
      ((xs.foldl (fun acc i => addToBucket (step i) (g i) acc) acc).map Prod.fst).Nodup ∧
        ∀ k ∈ (xs.foldl (fun acc i => addToBucket (step i) (g i) acc) acc).map Prod.fst,
          P k := by
  induction xs with
  | nil => intro acc h1 h2; exact ⟨h1, h2⟩
  | cons x rest ih =>
    intro acc h1 h2
    have := addToBucket_inv P (step x) (g x) acc h1 h2 (hstep x)
    exact ih _ this.1 this.2

lemma insertPairByTime_perm (x : Int × Rat) (l : List (Int × Rat)) :
    (insertPairByTime x l).Perm (x :: l) := by
  induction l with
  | nil => exact List.Perm.refl _
  | cons y ys ih =>
    by_cases h : x.1 ≤ y.1
    · rw [insertPairByTime, if_pos h]
    · rw [insertPairByTime, if_neg h]
      exact (ih.cons y).trans (List.Perm.swap x y ys)

lemma sortPairsByTime_perm (l : List (Int × Rat)) : (sortPairsByTime l).Perm l := by
  induction l with
  | nil => exact List.Perm.refl _
  | cons x xs ih =>
    exact (insertPairByTime_perm x (sortPairsByTime xs)).trans (ih.cons x)

lemma insertPairByTime_sorted (x : Int × Rat) (l : List (Int × Rat))
    (h : l.Pairwise (fun a b => a.1 ≤ b.1)) :
    (insertPairByTime x l).Pairwise (fun a b => a.1 ≤ b.1) := by
  induction l with
  | nil => simp [insertPairByTime]
  | cons y ys ih =>
    rcases List.pairwise_cons.mp h with ⟨hy, hys⟩
    by_cases hx : x.1 ≤ y.1
    · rw [insertPairByTime, if_pos hx]
      refine List.pairwise_cons.mpr ⟨?_, h⟩
      intro b hb
      rcases List.mem_cons.mp hb with rfl | hb
      · exact hx
      · exact le_trans hx (hy b hb)
    · rw [insertPairByTime, if_neg hx]
      refine List.pairwise_cons.mpr ⟨?_, ih hys⟩
      intro b hb
      rcases List.mem_cons.mp ((insertPairByTime_perm x ys).mem_iff.mp hb) with rfl | hb
      · exact le_of_lt (lt_of_not_le hx)
      · exact hy b hb

lemma sortPairsByTime_sorted (l : List (Int × Rat)) :
    (sortPairsByTime l).Pairwise (fun a b => a.1 ≤ b.1) := by
  induction l with
  | nil => simp [sortPairsByTime]
  | cons x xs ih => exact insertPairByTime_sorted x (sortPairsByTime xs) ih

lemma cumFold_map_time (l : List (Int × Rat)) :
    ∀ c : Rat, (cumFold c l).map (fun d => d.time) = l.map Prod.fst := by
  induction l with
  | nil => intro c; rfl
  | cons x rest ih => obtain ⟨t, v⟩ := x; intro c; simp [cumFold, ih]

/-- C9: for every income list, `buildIncomeTimeline` returns a series whose
times are pairwise strictly increasing (hence sorted and duplicate-free) and
each an exact multiple of 86,400,000 ms (a UTC day start). -/
theorem buildIncomeTimeline_strictly_increasing_day_aligned
    (income : List IncomeRec) (dailyPrices : List PriceSample) (btcPrice : Rat) :
    (buildIncomeTimeline income dailyPrices btcPrice).Pairwise
        (fun a b => a.time < b.time) ∧
      ∀ b ∈ buildIncomeTimeline income dailyPrices btcPrice,
        ∃ k : Int, b.time = k * 86400000 := by
  simp only [buildIncomeTimeline]
  by_cases h : (sortByTime (income.filter isPnlType)).isEmpty
  · rw [if_pos h]; exact ⟨List.Pairwise.nil, by simp⟩
  · rw [if_neg h]
    have hinv := bucketFold_inv (fun k => ∃ j : Int, k = j * 86400000)
      (fun inc => dayKeyOf inc.time)
      (fun inc => divOrZero inc.income (priceOr inc.time dailyPrices btcPrice))
      (fun i => ⟨i.time.fdiv 86400000, rfl⟩)
      (sortByTime (income.filter isPnlType)) [] (by simp) (by simp)
    set buckets := (sortByTime (income.filter isPnlType)).foldl
      (fun acc inc =>
        addToBucket (dayKeyOf inc.time)
          (divOrZero inc.income (priceOr inc.time dailyPrices btcPrice)) acc) []
      with hbuckets
    have hperm : ((sortPairsByTime buckets).map Prod.fst).Perm (buckets.map Prod.fst) :=
      (sortPairsByTime_perm buckets).map Prod.fst
    have hnd : ((sortPairsByTime buckets).map Prod.fst).Nodup :=
      (hperm.nodup_iff).mpr hinv.1
    have hsorted := sortPairsByTime_sorted buckets
    have hlt : (sortPairsByTime buckets).Pairwise (fun a b => a.1 < b.1) := by
      have hne : (sortPairsByTime buckets).Pairwise (fun a b => a.1 ≠ b.1) :=
        List.pairwise_map.mp hnd
      exact (hsorted.and hne).imp (fun hab => lt_of_le_of_ne hab.1 hab.2)
    constructor
    · have hmap : ((cumFold 0 (sortPairsByTime buckets)).map (fun d => d.time)).Pairwise
          (fun a b => a < b) := by
        rw [cumFold_map_time]
        exact List.pairwise_map.mpr hlt
      exact List.pairwise_map.mp hmap
    · intro b hb
      have : b.time ∈ (cumFold 0 (sortPairsByTime buckets)).map (fun d => d.time) :=
        List.mem_map_of_mem _ hb
      rw [cumFold_map_time] at this
      exact hinv.2 b.time (hperm.mem_iff.mp this)

lemma nearStep_foldl_spec (ts : Int) (l : List PriceSample) :
    ∀ b : PriceSample,
      ∃ r : PriceSample,
        l.foldl (nearStep ts) (b, |ts - b.time|) = (r, |ts - r.time|) ∧
        |ts - r.time| ≤ |ts - b.time| ∧
        (∀ p ∈ l, |ts - r.time| ≤ |ts - p.time|) ∧
        (r = b ∨ ∃ l1 l2, l = l1 ++ r :: l2 ∧ |ts - r.time| < |ts - b.time| ∧
          ∀ p ∈ l1, |ts - r.time| < |ts - p.time|) := by
  induction l with
  | nil =>
    intro b
    exact ⟨b, rfl, le_refl _, by simp, Or.inl rfl⟩
  | cons p l ih =>
    intro b
    by_cases hd : |ts - p.time| < |ts - b.time|
    · obtain ⟨r, hfold, hle, hall, hdec⟩ := ih p
      have hstep : List.foldl (nearStep ts) (b, |ts - b.time|) (p :: l)
          = List.foldl (nearStep ts) (p, |ts - p.time|) l := by
        simp only [List.foldl_cons, nearStep, if_pos hd]
      refine ⟨r, by rw [hstep]; exact hfold, le_trans hle (le_of_lt hd), ?_, ?_⟩
      · intro q hq
        rcases List.mem_cons.mp hq with rfl | hq
        · exact hle
        · exact hall q hq
      · rcases hdec with rfl | ⟨l1, l2, heq, hlt, hstrict⟩
        · exact Or.inr ⟨[], l, rfl, hd, by simp⟩
        · refine Or.inr ⟨p :: l1, l2, by rw [heq, List.cons_append], lt_trans hlt hd, ?_⟩
          intro q hq
          rcases List.mem_cons.mp hq with rfl | hq
          · exact hlt
          · exact hstrict q hq
    · obtain ⟨r, hfold, hle, hall, hdec⟩ := ih b
      have hstep : List.foldl (nearStep ts) (b, |ts - b.time|) (p :: l)
          = List.foldl (nearStep ts) (b, |ts - b.time|) l := by
        simp only [List.foldl_cons, nearStep, if_neg hd]
      refine ⟨r, by rw [hstep]; exact hfold, hle, ?_, ?_⟩
      · intro q hq
        rcases List.mem_cons.mp hq with rfl | hq
        · exact le_trans hle (not_lt.mp hd)
        · exact hall q hq
      · rcases hdec with rfl | ⟨l1, l2, heq, hlt, hstrict⟩
        · exact Or.inl rfl
        · refine Or.inr ⟨p :: l1, l2, by rw [heq, List.cons_append], hlt, ?_⟩
          intro q hq
          rcases List.mem_cons.mp hq with rfl | hq
          · exact lt_of_lt_of_le hlt (not_lt.mp hd)
          · exact hstrict q hq

/-- C4: `btcPriceAt` returns `null` for an empty sample list, and for a
nonempty list it returns the close price of a sample at minimal distance
`|t - sample.time|`; every sample strictly before it in sequence order is
strictly farther, so ties go to the earliest sample. -/
theorem btcPriceAt_nearest (ts : Int) (ps : List PriceSample) :
    btcPriceAt ts [] = none ∧
    (ps ≠ [] →
      ∃ best l1 l2, ps = l1 ++ best :: l2 ∧
        btcPriceAt ts ps = some best.close ∧
        (∀ p ∈ ps, |ts - best.time| ≤ |ts - p.time|) ∧
        (∀ p ∈ l1, |ts - best.time| < |ts - p.time|)) := by
  refine ⟨rfl, ?_⟩
  intro hne
  match ps, hne with
  | p0 :: rest, _ =>
    obtain ⟨r, hfold, _, hall, hdec⟩ := nearStep_foldl_spec ts (p0 :: rest) p0
    have hval : btcPriceAt ts (p0 :: rest) = some r.close := by
      rw [btcPriceAt, hfold]
    rcases hdec with rfl | ⟨l1, l2, heq, _, hstrict⟩
    · exact ⟨r, [], rest, rfl, hval, hall, by simp⟩
    · exact ⟨r, l1, l2, heq, hval, hall, hstrict⟩

/-- Closed witness for C4: at `t = 8` over samples at times 0 and 10, the
nearest sample (time 10, close 7) is returned. -/
theorem btcPriceAt_nearest_witness :
    ∃ best l1 l2, ([⟨0, 1, 5⟩, ⟨10, 1, 7⟩] : List PriceSample) = l1 ++ best :: l2 ∧
      btcPriceAt 8 [⟨0, 1, 5⟩, ⟨10, 1, 7⟩] = some best.close ∧
      (∀ p ∈ ([⟨0, 1, 5⟩, ⟨10, 1, 7⟩] : List PriceSample),
        |(8 : Int) - best.time| ≤ |(8 : Int) - p.time|) ∧
      (∀ p ∈ l1, |(8 : Int) - best.time| < |(8 : Int) - p.time|) :=
  (btcPriceAt_nearest 8 [⟨0, 1, 5⟩, ⟨10, 1, 7⟩]).2 (by decide)

lemma ite_gt_eq_max (a b : Rat) : (if a > b then a else b) = max b a := by
  rcases le_or_lt a b with h | h
  · rw [if_neg (not_lt.mpr h), max_eq_left h]
  · rw [if_pos h, max_eq_right h.le]

lemma ddLoop_maxDD (l : List DayBucket) :
    ∀ e p m : Rat,
      (ddLoop l (e, p, m)).2.2
        = (List.zipWith (fun a b => a - b) (equitySeq e l)
            (runningPeaksFrom p (equitySeq e l))).foldl (fun acc d => max acc (-d)) m := by
  induction l with
  | nil => intro e p m; rfl
  | cons d rest ih =>
    intro e p m
    rw [show ddLoop (d :: rest) (e, p, m)
        = ddLoop rest (e + d.dailyBtc,
            if e + d.dailyBtc > p then e + d.dailyBtc else p,
            if (if e + d.dailyBtc > p then e + d.dailyBtc else p) - (e + d.dailyBtc) > m
            then (if e + d.dailyBtc > p then e + d.dailyBtc else p) - (e + d.dailyBtc)
            else m) from rfl]
    rw [ih]
    simp only [equitySeq, runningPeaksFrom, List.zipWith, List.foldl]
    rw [ite_gt_eq_max, ite_gt_eq_max, neg_sub]

lemma neg_foldl_min (l : List Rat) :
    ∀ c : Rat, -(l.foldl min c) = l.foldl (fun a d => max a (-d)) (-c) := by
  induction l with
  | nil => intro c; rfl
  | cons d rest ih =>
    intro c
    simp only [List.foldl]
    rw [ih (min c d)]
    congr 1
    rcases le_total c d with h | h
    · rw [min_eq_left h, max_eq_left (by linarith)]
    · rw [min_eq_right h, max_eq_right (by linarith)]

lemma le_foldl_max_neg (l : List Rat) :
    ∀ c : Rat, c ≤ l.foldl (fun a d => max a (-d)) c := by
  induction l with
  | nil => intro c; exact le_refl c
  | cons d rest ih =>
    intro c
    exact le_trans (le_max_left c (-d)) (ih (max c (-d)))

lemma zipWith_sub_runningPeaks_nonpos (l : List Rat) :
    ∀ p : Rat, ∀ d ∈ List.zipWith (fun a b => a - b) l (runningPeaksFrom p l), d ≤ 0 := by
  induction l with
  | nil => intro p d hd; simp at hd
  | cons e rest ih =>
    intro p d hd
    rw [show runningPeaksFrom p (e :: rest)
        = max p e :: runningPeaksFrom (max p e) rest from rfl] at hd
    rcases List.mem_cons.mp hd with rfl | hd
    · exact sub_nonpos.mpr (le_max_right p e)
    · exact ih (max p e) d hd

/-- C1 (amended): the running peak of `computeRiskMetrics` is seeded with 0,
so `runningPeak[i] = max(0, equity[0..i])`; with that peak every drawdown
`equity[i] - runningPeak[i]` is `≤ 0`, and the returned `maxDrawdownBtc` is
the **negation** of the least drawdown (clamped at 0), a nonnegative
magnitude rather than the nonpositive minimum the spec describes. -/
theorem computeRiskMetrics_drawdown_clamped (sq : Rat → Rat) (fd : Int → String)
    (timeline : List DayBucket) (totalBtc : Rat) (h : 2 ≤ timeline.length) :
    (∀ d ∈ drawdowns (equitySeq (totalBtc - lastCumulative timeline) timeline), d ≤ 0) ∧
    (computeRiskMetrics sq fd timeline totalBtc).maxDrawdownBtc
      = -((drawdowns (equitySeq (totalBtc - lastCumulative timeline) timeline)).foldl
          min 0) ∧
    0 ≤ (computeRiskMetrics sq fd timeline totalBtc).maxDrawdownBtc := by
  have hfield : (computeRiskMetrics sq fd timeline totalBtc).maxDrawdownBtc
      = (ddLoop timeline (totalBtc - lastCumulative timeline, 0, 0)).2.2 := by
    rw [computeRiskMetrics, if_neg (by omega)]
  refine ⟨fun d hd => zipWith_sub_runningPeaks_nonpos _ 0 d hd, ?_, ?_⟩
  · rw [hfield, ddLoop_maxDD, drawdowns, neg_foldl_min, neg_zero]
  · rw [hfield, ddLoop_maxDD]
    simpa using le_foldl_max_neg _ 0

/-- Counterexample to C1 as stated: for the timeline of daily deltas
`[+1, -1/2]` and current balance 1/2, the reconstructed equity is `[1, 1/2]`,
the spec's minimum drawdown is `-1/2 ≤ 0`, but `computeRiskMetrics` returns
`maxDrawdownBtc = +1/2`, which is positive and differs from the minimum
drawdown. -/
theorem computeRiskMetrics_drawdown_cex :
    (computeRiskMetrics (fun q => q) (fun _ => "")
        [⟨0, 1, 1⟩, ⟨86400000, -(1/2), 1/2⟩] (1/2)).maxDrawdownBtc = 1/2 ∧
    ¬ (computeRiskMetrics (fun q => q) (fun _ => "")
        [⟨0, 1, 1⟩, ⟨86400000, -(1/2), 1/2⟩] (1/2)).maxDrawdownBtc ≤ 0 := by
  have hfield : (computeRiskMetrics (fun q => q) (fun _ => "")
      [⟨0, 1, 1⟩, ⟨86400000, -(1/2), 1/2⟩] (1/2)).maxDrawdownBtc
      = (ddLoop [⟨0, 1, 1⟩, ⟨86400000, -(1/2), 1/2⟩]
          ((1/2 : Rat) - lastCumulative [⟨0, 1, 1⟩, ⟨86400000, -(1/2), 1/2⟩],
            0, 0)).2.2 := by
    rw [computeRiskMetrics, if_neg (by norm_num)]
  rw [hfield]
  norm_num [ddLoop, lastCumulative, List.getLast?]

/-- Closed witness for the amended C1 at the same concrete two-day timeline. -/
theorem computeRiskMetrics_drawdown_clamped_witness :
    (∀ d ∈ drawdowns (equitySeq
        ((1/2 : Rat) - lastCumulative [⟨0, 1, 1⟩, ⟨86400000, -(1/2), 1/2⟩])
        [⟨0, 1, 1⟩, ⟨86400000, -(1/2), 1/2⟩]), d ≤ 0) ∧
    (computeRiskMetrics (fun q => q) (fun _ => "")
        [⟨0, 1, 1⟩, ⟨86400000, -(1/2), 1/2⟩] (1/2)).maxDrawdownBtc
      = -((drawdowns (equitySeq
          ((1/2 : Rat) - lastCumulative [⟨0, 1, 1⟩, ⟨86400000, -(1/2), 1/2⟩])
          [⟨0, 1, 1⟩, ⟨86400000, -(1/2), 1/2⟩])).foldl min 0) ∧
    0 ≤ (computeRiskMetrics (fun q => q) (fun _ => "")
        [⟨0, 1, 1⟩, ⟨86400000, -(1/2), 1/2⟩] (1/2)).maxDrawdownBtc :=
  computeRiskMetrics_drawdown_clamped (fun q => q) (fun _ => "")
    [⟨0, 1, 1⟩, ⟨86400000, -(1/2), 1/2⟩] (1/2) (by decide)

/-- Counterexample to C7 as stated: a single-event income list is an input
with fewer than 2 data points, yet `buildIncomeTimeline` returns a non-empty
bucket sequence and `computeForecastData` over the single resulting month
returns that month's PnL (5, not 0) as its average. -/
theorem insufficient_data_cex :
    buildIncomeTimeline [⟨0, "REALIZED_PNL", 1⟩] [] 1 ≠ [] ∧
    (computeForecastData (fun q => q) [⟨0, 0, 5⟩] 0 0).avgMonthlyPnlBtc = 5 := by
  constructor
  · decide
  · simp only [computeForecastData, List.map_cons, List.map_nil, List.length_cons,
      List.length_nil, List.foldl_cons, List.foldl_nil]
    norm_num

/-- C7 (amended): the computations are total and degrade to the documented
neutral results — `computeRiskMetrics` returns the all-zero/neutral object
whenever the timeline has fewer than 2 buckets; for the **empty** income list
all three bucket builders return empty sequences and `computeForecastData`
returns zero average; and with fewer than 2 months `computeForecastData`
returns zero standard deviation and the all-zero trend (a single data point
keeps its own nonzero average and bucket). -/
theorem insufficient_data_neutral (sq : Rat → Rat) (fd : Int → String)
    (timeline : List DayBucket) (totalBtc : Rat) (dp : List PriceSample)
    (bp : Rat) (startTime : Int) (localYM : Int → Int × Int)
    (mStart : Int × Int → Int) (monthly : List MonthBucket) (tb flow : Rat)
    (hlen : timeline.length < 2) (h0 : sq 0 = 0) (hm : monthly.length < 2) :
    computeRiskMetrics sq fd timeline totalBtc = neutralRiskMetrics ∧
    buildIncomeTimeline [] dp bp = [] ∧
    buildWeeklyPnl startTime [] dp bp = [] ∧
    buildMonthlyPnl localYM mStart [] dp bp = [] ∧
    (computeForecastData sq [] tb flow).avgMonthlyPnlBtc = 0 ∧
    (computeForecastData sq monthly tb flow).stdDev = 0 ∧
    (computeForecastData sq monthly tb flow).trend = ⟨0, 0, 0⟩ := by
  refine ⟨?_, rfl, rfl, rfl, ?_, ?_, ?_⟩
  · rw [computeRiskMetrics, if_pos hlen]
  · simp [computeForecastData]
  · match monthly, hm with
    | [], _ =>
      simpa [computeForecastData] using h0
    | [m], _ =>
      simp only [computeForecastData, List.map_cons, List.map_nil, List.length_cons,
        List.length_nil, List.foldl_cons, List.foldl_nil]
      norm_num [h0]
  · show linearRegression (monthly.map (·.pnlBtc)) = ⟨0, 0, 0⟩
    rw [linearRegression, if_pos (by simpa using hm)]

/-- Closed witness for the amended C7 at fully concrete inputs. -/
theorem insufficient_data_neutral_witness :
    computeRiskMetrics (fun q => q) (fun _ => "") [] 1 = neutralRiskMetrics ∧
    buildIncomeTimeline [] [] 1 = [] ∧
    buildWeeklyPnl 0 [] [] 1 = [] ∧
    buildMonthlyPnl (fun _ => (2024, 0)) (fun _ => 0) [] [] 1 = [] ∧
    (computeForecastData (fun q => q) [] 1 1).avgMonthlyPnlBtc = 0 ∧
    (computeForecastData (fun q => q) [⟨0, 0, 5⟩] 1 1).stdDev = 0 ∧
    (computeForecastData (fun q => q) [⟨0, 0, 5⟩] 1 1).trend = ⟨0, 0, 0⟩ :=
  insufficient_data_neutral (fun q => q) (fun _ => "") [] 1 [] 1 0
    (fun _ => (2024, 0)) (fun _ => 0) [⟨0, 0, 5⟩] 1 1
    (by decide) rfl (by decide)

/-- Specification-side sum of the regressor indices `0..n-1`. -/
def idxSum (n : Nat) : Rat := ((List.range n).map fun (i : Nat) => (i : Rat)).sum

/-- Specification-side sum of squared regressor indices `0..n-1`. -/
def idxSqSum (n : Nat) : Rat :=
  ((List.range n).map fun (i : Nat) => (i : Rat) * (i : Rat)).sum

/-- Specification-side sum of `i * points[i]` over `0..n-1`. -/
def idxWeightedSum (points : List Rat) : Rat :=
  ((List.range points.length).map fun (i : Nat) => (i : Rat) * points.getD i 0).sum

lemma lrSums_go (points : List Rat) (l : List Nat) :
    ∀ a b c d : Rat,
      l.foldl (fun acc (i : Nat) =>
          (acc.1 + (i : Rat), acc.2.1 + points.getD i 0,
            acc.2.2.1 + (i : Rat) * (i : Rat), acc.2.2.2 + (i : Rat) * points.getD i 0))
          (a, b, c, d)
        = (a + (l.map fun (i : Nat) => (i : Rat)).sum,
            b + (l.map fun (i : Nat) => points.getD i 0).sum,
            c + (l.map fun (i : Nat) => (i : Rat) * (i : Rat)).sum,
            d + (l.map fun (i : Nat) => (i : Rat) * points.getD i 0).sum) := by
  induction l with
  | nil => intro a b c d; simp
  | cons x rest ih =>
    intro a b c d
    rw [List.foldl_cons, ih]
    simp [List.sum_cons, add_assoc]

lemma getD_range_map (l : List Rat) :
    (List.range l.length).map (fun (i : Nat) => l.getD i 0) = l := by
  induction l with
  | nil => rfl
  | cons x xs ih =>
    rw [List.length_cons, List.range_succ_eq_map, List.map_cons, List.map_map]
    simp only [Function.comp_def, List.getD_cons_zero, List.getD_cons_succ]
    rw [ih]

lemma lrSums_eq (points : List Rat) :
    lrSums points
      = (idxSum points.length, points.sum, idxSqSum points.length,
          idxWeightedSum points) := by
  rw [lrSums, lrSums_go points (List.range points.length) 0 0 0 0]
  rw [getD_range_map]
  simp [idxSum, idxSqSum, idxWeightedSum]

/-- C8: `linearRegression` computes the OLS slope
`(n·Σxy − Σx·Σy) / (n·Σx² − (Σx)²)` over month indices `0..n-1` with the
zero-denominator guard, and intercept `(Σy − slope·Σx)/n`; and on monthly PnL
values `[0.1, 0.2, 0.3]`, `computeForecastData` yields slope `0.1`, intercept
`0.1`, trend direction `improving`, average `0.2`, and standard deviation
`sqrt(1/150)`. -/
theorem linearRegression_ols_and_example (points : List Rat) (sq : Rat → Rat)
    (tb flow : Rat) (h : 2 ≤ points.length) :
    ((linearRegression points).slope
        = ((points.length : Rat) * idxWeightedSum points
            - idxSum points.length * points.sum)
          / (if (points.length : Rat) * idxSqSum points.length
                - idxSum points.length * idxSum points.length = 0 then 1
              else (points.length : Rat) * idxSqSum points.length
                - idxSum points.length * idxSum points.length) ∧
      (linearRegression points).intercept
        = (points.sum - (linearRegression points).slope * idxSum points.length)
          / (points.length : Rat)) ∧
    (computeForecastData sq [⟨0, 0, 1/10⟩, ⟨0, 0, 2/10⟩, ⟨0, 0, 3/10⟩]
        tb flow).trend.slope = 1/10 ∧
    (computeForecastData sq [⟨0, 0, 1/10⟩, ⟨0, 0, 2/10⟩, ⟨0, 0, 3/10⟩]
        tb flow).trend.intercept = 1/10 ∧
    (computeForecastData sq [⟨0, 0, 1/10⟩, ⟨0, 0, 2/10⟩, ⟨0, 0, 3/10⟩]
        tb flow).trendDirection = "improving" ∧
    (computeForecastData sq [⟨0, 0, 1/10⟩, ⟨0, 0, 2/10⟩, ⟨0, 0, 3/10⟩]
        tb flow).avgMonthlyPnlBtc = 1/5 ∧
    (computeForecastData sq [⟨0, 0, 1/10⟩, ⟨0, 0, 2/10⟩, ⟨0, 0, 3/10⟩]
        tb flow).stdDev = sq (1/150) := by
  have hnot : ¬ points.length < 2 := not_lt.mpr h
  have hform : (linearRegression points).slope
        = ((points.length : Rat) * idxWeightedSum points
            - idxSum points.length * points.sum)
          / (if (points.length : Rat) * idxSqSum points.length
                - idxSum points.length * idxSum points.length = 0 then 1
              else (points.length : Rat) * idxSqSum points.length
                - idxSum points.length * idxSum points.length) ∧
      (linearRegression points).intercept
        = (points.sum - (linearRegression points).slope * idxSum points.length)
          / (points.length : Rat) := by
    constructor
    · rw [linearRegression, if_neg hnot]
      simp only [lrSums_eq]
    · conv_lhs => rw [linearRegression, if_neg hnot]
      conv_rhs => rw [linearRegression, if_neg hnot]
      simp only [lrSums_eq]
  have hlr : linearRegression [(1 : Rat)/10, 2/10, 3/10]
      = ⟨1/10, 1/10, 1⟩ := by
    have h3 : List.range 3 = [0, 1, 2] := rfl
    rw [linearRegression, if_neg (by norm_num)]
    simp only [lrSums_eq, List.length_cons, List.length_nil]
    norm_num [idxSum, idxSqSum, idxWeightedSum, h3, List.getD]
  have htrend : (computeForecastData sq [⟨0, 0, 1/10⟩, ⟨0, 0, 2/10⟩, ⟨0, 0, 3/10⟩]
      tb flow).trend = linearRegression [(1 : Rat)/10, 2/10, 3/10] := rfl
  refine ⟨hform, ?_, ?_, ?_, ?_, ?_⟩
  · rw [htrend, hlr]
  · rw [htrend, hlr]
  · have hdir : (computeForecastData sq [⟨0, 0, 1/10⟩, ⟨0, 0, 2/10⟩, ⟨0, 0, 3/10⟩]
        tb flow).trendDirection
        = if (linearRegression [(1 : Rat)/10, 2/10, 3/10]).slope > 0 then "improving"
          else if (linearRegression [(1 : Rat)/10, 2/10, 3/10]).slope < 0 then "declining"
          else "flat" := rfl
    rw [hdir, hlr]
    norm_num
  · simp only [computeForecastData, List.map_cons, List.map_nil, List.length_cons,
      List.length_nil, List.foldl_cons, List.foldl_nil]
    norm_num
  · simp only [computeForecastData, List.map_cons, List.map_nil, List.length_cons,
      List.length_nil, List.foldl_cons, List.foldl_nil]
    norm_num

/-- Closed witness for C8 at `points = [0.1, 0.2, 0.3]`. -/
theorem linearRegression_ols_and_example_witness :
    ((linearRegression [(1 : Rat)/10, 2/10, 3/10]).slope
        = (((3 : Nat) : Rat) * idxWeightedSum [(1 : Rat)/10, 2/10, 3/10]
            - idxSum 3 * ([(1 : Rat)/10, 2/10, 3/10].sum))
          / (if ((3 : Nat) : Rat) * idxSqSum 3 - idxSum 3 * idxSum 3 = 0 then 1
              else ((3 : Nat) : Rat) * idxSqSum 3 - idxSum 3 * idxSum 3) ∧
      (linearRegression [(1 : Rat)/10, 2/10, 3/10]).intercept
        = (([(1 : Rat)/10, 2/10, 3/10].sum)
            - (linearRegression [(1 : Rat)/10, 2/10, 3/10]).slope * idxSum 3)
          / ((3 : Nat) : Rat)) ∧
    (computeForecastData (fun q => q) [⟨0, 0, 1/10⟩, ⟨0, 0, 2/10⟩, ⟨0, 0, 3/10⟩]
        0 0).trend.slope = 1/10 ∧
    (computeForecastData (fun q => q) [⟨0, 0, 1/10⟩, ⟨0, 0, 2/10⟩, ⟨0, 0, 3/10⟩]
        0 0).trend.intercept = 1/10 ∧
    (computeForecastData (fun q => q) [⟨0, 0, 1/10⟩, ⟨0, 0, 2/10⟩, ⟨0, 0, 3/10⟩]
        0 0).trendDirection = "improving" ∧
    (computeForecastData (fun q => q) [⟨0, 0, 1/10⟩, ⟨0, 0, 2/10⟩, ⟨0, 0, 3/10⟩]
        0 0).avgMonthlyPnlBtc = 1/5 ∧
    (computeForecastData (fun q => q) [⟨0, 0, 1/10⟩, ⟨0, 0, 2/10⟩, ⟨0, 0, 3/10⟩]
        0 0).stdDev = 1/150 :=
  linearRegression_ols_and_example [(1 : Rat)/10, 2/10, 3/10] (fun q => q) 0 0
    (by decide)

/-- Closed witness for C5, exercising the zero-amount, stable, direct-pair,
USDT-cross and unconvertible branches of the conversion chain. -/
theorem toBtc_conversion_chain_witness :
    toBtc "ETH" 0 [("ETHBTC", 3)] = 0 ∧
    toBtc "USDT" 5 [("BTCUSDT", 50000)] = 5 / 50000 ∧
    toBtc "ETH" 2 [("ETHBTC", 3)] = 2 * 3 ∧
    toBtc "ETH" 2 [("ETHUSDT", 3000), ("BTCUSDT", 60000)] = 2 * 3000 / 60000 ∧
    toBtc "XYZ" 7 [] = 0 :=
  ⟨(toBtc_conversion_chain "ETH" 0 [("ETHBTC", 3)]).1 rfl,
    ((toBtc_conversion_chain "USDT" 5 [("BTCUSDT", 50000)]).2.2.1
      (by norm_num) (by decide) (by decide)).1 50000 (by decide),
    ((toBtc_conversion_chain "ETH" 2 [("ETHBTC", 3)]).2.2.2.1
      (by norm_num) (by decide) (by decide)).1 3 (by decide),
    (((toBtc_conversion_chain "ETH" 2 [("ETHUSDT", 3000), ("BTCUSDT", 60000)]).2.2.2.1
      (by norm_num) (by decide) (by decide)).2 (by decide)).1 3000 60000
      (by decide) (by decide),
    (((toBtc_conversion_chain "XYZ" 7 []).2.2.2.1
      (by norm_num) (by decide) (by decide)).2 rfl).2 (Or.inl rfl)⟩

/-- Closed witness for C9 at a concrete two-event income list. -/
theorem buildIncomeTimeline_strictly_increasing_day_aligned_witness :
    (buildIncomeTimeline [⟨0, "REALIZED_PNL", 1⟩, ⟨86400000, "FUNDING_FEE", 2⟩]
        [] 1).Pairwise (fun a b => a.time < b.time) ∧
      ∀ b ∈ buildIncomeTimeline [⟨0, "REALIZED_PNL", 1⟩, ⟨86400000, "FUNDING_FEE", 2⟩]
          [] 1,
        ∃ k : Int, b.time = k * 86400000 :=
  buildIncomeTimeline_strictly_increasing_day_aligned _ _ _

end StoicTracker
